import Mathlib

/-!
Verification of the magnet-lab Hall-probe mapping code.

The Python sources are shallowly embedded over exact rationals (`ℚ`):

* `hp_line_scan.py` — `arange`, `LineScan.__init__` / `run` /
  `scanOnTheFly` / `scanPointByPoint`;
* `motor_controller.py` — `Axis.move` (step conversion, default timeout,
  wait/poll loop) and the `MotorController` axis table;
* `adlink_card.py` — the `int(data)` coercion in `setTriggerPosition`;
* `hall_probe.py` — the trigger arm / assert / fetch protocol of
  `MetrolabProbe`, including the argument checks of `setTriggerCount` and
  `getField`;
* `map_xy.py` — the grid sweep retry loop (module scope, lines 126-137).

Stateful code is embedded as a function from an explicit environment
(oracles for successive hardware readings) to a trace of device events
plus an error outcome, so every definition is executable.
-/

namespace MagnetLab

/-- Model of `np.copysign(1, x)` over exact rationals: `1` carrying the
sign of `x` (`+1` at `x = 0`, matching IEEE `+0.0`). -/
def copysignOne (x : ℚ) : ℚ := if x < 0 then -1 else 1

/-- Python `int(q)` applied to a float value: truncation toward zero. -/
def pyTrunc (q : ℚ) : ℤ := if q < 0 then ⌈q⌉ else ⌊q⌋

/-- Number of elements of `np.arange(start, stop, step)`:
`max 0 ⌈(stop - start) / step⌉`. -/
def npArangeLen (start stop step : ℚ) : ℕ := (⌈(stop - start) / step⌉).toNat

/-- Model of `np.arange(start, stop, step)` over exact rationals:
`[start, start + step, ...]`, excluding `stop`. -/
def npArange (start stop step : ℚ) : List ℚ :=
  (List.range (npArangeLen start stop step)).map (fun i : ℕ => start + (i : ℚ) * step)

/-- The function `hp_line_scan.arange` (with a stop value given): numpy's
`arange` with the stop value padded by `0.002` so that the specified stop
value is included. -/
def arange (start stop step : ℚ) : List ℚ :=
  npArange start (stop + 1/500) step

/-- A motion axis as configured in `motor_controller.MotorController`:
id, steps per mm, maximum speed (mm/s) and acceleration. -/
structure Axis where
  id : ℕ
  scale_factor : ℚ
  max_speed : ℚ
  acceleration : ℚ
deriving DecidableEq

/-- Axis 2 (key `'x'`, alias `'hp x'`): `Axis(serial_port, 2, 2000, 2, 0.5)`. -/
def hpx : Axis := ⟨2, 2000, 2, 1/2⟩

/-- Axis 1 (key `'y'`, alias `'hp y'`): `Axis(serial_port, 1, 2000, 6, 0.75)`. -/
def hpy : Axis := ⟨1, 2000, 6, 3/4⟩

/-- Axis 3 (key `'z'`, alias `'hp z'`): `Axis(serial_port, 3, 1000, 30, 10)`. -/
def hpz : Axis := ⟨3, 1000, 30, 10⟩

/-- The `MotorController.axis` dictionary, restricted to the Hall-probe
scan axes accepted by `LineScan.__init__`. -/
def motorAxis (name : String) : Option Axis :=
  if name == "x" then some hpx
  else if name == "y" then some hpy
  else if name == "z" then some hpz
  else none

/-- Line 44 of `hp_line_scan.py`:
`speed = min(self.step / min_trigger_time, self.axis.max_speed)`. -/
def scanSpeed (step min_trigger_time max_speed : ℚ) : ℚ :=
  min (step / min_trigger_time) max_speed

/-! ### Evaluation helpers for `⌈·⌉` on `ℚ` -/

theorem ceil_eval {q : ℚ} {z : ℤ} (h1 : (z : ℚ) - 1 < q) (h2 : q ≤ (z : ℚ)) :
    ⌈q⌉ = z :=
  Int.ceil_eq_iff.mpr ⟨by exact_mod_cast h1, h2⟩

theorem npArangeLen_eval {start stop step : ℚ} {n : ℕ}
    (h1 : (n : ℚ) - 1 < (stop - start) / step) (h2 : (stop - start) / step ≤ (n : ℚ)) :
    npArangeLen start stop step = n := by
  unfold npArangeLen
  rw [ceil_eval (z := (n : ℤ)) (by exact_mod_cast h1) (by exact_mod_cast h2)]
  exact Int.toNat_natCast n

theorem npArangeLen_zero {start stop step : ℚ} (h : (stop - start) / step ≤ 0) :
    npArangeLen start stop step = 0 := by
  unfold npArangeLen
  have : ⌈(stop - start) / step⌉ ≤ (0 : ℤ) := Int.ceil_le.mpr (by exact_mod_cast h)
  omega

/-- When `stop = start + k * step` exactly and `step ≥ 0.002` (the epsilon
pad), `arange` produces the `k + 1` equally spaced points. -/
theorem arange_exact (start step : ℚ) (k : ℕ) (hstep : 1/500 ≤ step) :
    arange start (start + k * step) step =
      (List.range (k + 1)).map (fun i : ℕ => start + (i : ℚ) * step) := by
  have hstep0 : 0 < step := lt_of_lt_of_le (by norm_num) hstep
  unfold arange npArange
  rw [npArangeLen_eval (n := k + 1)]
  · rw [lt_div_iff₀ hstep0]
    push_cast
    nlinarith
  · rw [div_le_iff₀ hstep0]
    push_cast
    nlinarith

/-- C2 counterexample: with `step = 0.5 > 0` and the descending range
`start = 0`, `stop = -10`, the generated position sequence is empty — it is
not a decreasing sequence of length `floor((stop-start)/step)+1`, it does
not start at `start` and it does not include `stop`. -/
theorem c2_descending_counterexample :
    arange 0 (-10) (1/2) = [] ∧ (-10 : ℚ) ∉ arange 0 (-10) (1/2) := by
  have h : arange 0 (-10) (1/2) = [] := by
    unfold arange npArange
    rw [npArangeLen_zero]
    · simp
    · norm_num
  exact ⟨h, by rw [h]; simp⟩

/-- C2 (amended): for `step > 0` in an ascending range whose span is an
exact multiple of `step` (`stop = start + k·step`) with `step` at least the
`0.002` epsilon pad, the generated sequence has length
`floor((stop-start)/step) + 1 = k + 1`, starts at `start`, includes `stop`,
and is strictly increasing. -/
theorem c2_arange_ascending (start stop step : ℚ) (k : ℕ)
    (hstep : 1/500 ≤ step) (hk : stop = start + k * step) :
    (arange start stop step).length = k + 1 ∧
    (stop - start) / step = (k : ℚ) ∧
    (arange start stop step).head? = some start ∧
    stop ∈ arange start stop step ∧
    (arange start stop step).Pairwise (· < ·) := by
  have hstep0 : 0 < step := lt_of_lt_of_le (by norm_num) hstep
  subst hk
  rw [arange_exact start step k hstep]
  refine ⟨by simp, ?_, ?_, ?_, ?_⟩
  · field_simp
  · rw [List.range_succ_eq_map]
    simp
  · exact List.mem_map.mpr ⟨k, List.mem_range.mpr (Nat.lt_succ_self k), rfl⟩
  · refine List.Pairwise.map _ ?_ (List.pairwise_lt_range (k + 1))
    intro a b hab
    have : (a : ℚ) < (b : ℚ) := by exact_mod_cast hab
    nlinarith

/-- C2 witness: the spec's own scenario `ScanRange(start=-10, stop=0,
step=0.5)` — 21 positions from `-10` to `0`, strictly increasing. -/
theorem c2_arange_witness :
    (arange (-10) 0 (1/2)).length = 20 + 1 ∧
    ((0 : ℚ) - (-10)) / (1/2) = ((20 : ℕ) : ℚ) ∧
    (arange (-10) 0 (1/2)).head? = some (-10) ∧
    (0 : ℚ) ∈ arange (-10) 0 (1/2) ∧
    (arange (-10) 0 (1/2)).Pairwise (· < ·) :=
  c2_arange_ascending (-10) 0 (1/2) 20 (by norm_num) (by norm_num)

/-! ### `motor_controller.Axis.move` (lines 84-103) -/

/-- Successive replies of `Axis.get_position`: `cmd n` is the `n`-th reply
with `set_value=True` (command `oc`, the commanded position) and `act n`
the actual position (command `oa`, `set_value=False`) the axis holds at
the same instant. -/
structure PosOracle where
  cmd : ℕ → ℚ
  act : ℕ → ℚ

/-- Result of the `wait` polling loop of `Axis.move`, tagged with the index
of the `get_position` call at which the loop ended. -/
inductive WaitOutcome where
  | completed (polls : ℕ)
  | timedOut (polls : ℕ)
deriving DecidableEq

/-- The `wait` loop of `Axis.move`:
`while abs(self.get_position() - final_pos) > tolerance` with a timeout
check after each failing poll. `reading k` is the `k`-th `get_position()`
reply and `elapsed k` the value of `time() - start` at the `k`-th check;
`fuel` bounds the unrolling (`none` = still polling after `fuel` reads). -/
def movePoll (finalPos tol timeout : ℚ) (reading elapsed : ℕ → ℚ) :
    ℕ → ℕ → Option WaitOutcome
  | 0, _ => none
  | fuel + 1, k =>
    if |reading k - finalPos| ≤ tol then some (.completed k)
    else if timeout < elapsed k then some (.timedOut k)
    else movePoll finalPos tol timeout reading elapsed fuel (k + 1)

/-- Everything `Axis.move` computes and transmits: the command mnemonic
(`mr`/`ma`), the step count sent to hardware, the commanded final
position, the timeout in force, and the wait outcome (`none` when
`wait=False`). -/
structure MoveOut where
  cmdName : String
  steps : ℤ
  finalPos : ℚ
  timeoutUsed : ℚ
  waitOutcome : Option (Option WaitOutcome)
deriving DecidableEq

/-- `motor_controller.Axis.move` (non-SCL controllers): `init_pos` is the
first `get_position()` reply (index 0), `final_pos = position + (init_pos
if relative else 0)`, the default timeout is
`abs(final_pos - init_pos) / max_speed + 30`, and the transmitted step
count is `int(position * scale_factor)`. The wait loop polls the
commanded position starting from reply index 1. -/
def Axis.move (ax : Axis) (position : ℚ) (relative wait : Bool) (tol : ℚ)
    (timeout : Option ℚ) (oracle : PosOracle) (elapsed : ℕ → ℚ) (fuel : ℕ) :
    MoveOut :=
  let init_pos := oracle.cmd 0
  let final_pos := position + (if relative then init_pos else 0)
  let t := timeout.getD (|final_pos - init_pos| / ax.max_speed + 30)
  ⟨if relative then "mr" else "ma",
   pyTrunc (position * ax.scale_factor),
   final_pos, t,
   if wait then some (movePoll final_pos tol t oracle.cmd elapsed fuel 1) else none⟩

/-- `adlink_card.Axis.setTriggerPosition` transmits `int(data)` as the
comparator target. -/
def comparatorData (data : ℚ) : ℤ := pyTrunc data

theorem movePoll_completed {finalPos tol timeout : ℚ} {reading elapsed : ℕ → ℚ} :
    ∀ {fuel k0 k : ℕ},
      movePoll finalPos tol timeout reading elapsed fuel k0 = some (WaitOutcome.completed k) →
      k0 ≤ k ∧ |reading k - finalPos| ≤ tol ∧
        ∀ j, k0 ≤ j → j < k → tol < |reading j - finalPos| := by
  intro fuel
  induction fuel with
  | zero => intro k0 k h; simp [movePoll] at h
  | succ n ih =>
    intro k0 k h
    unfold movePoll at h
    split at h
    next h1 =>
      obtain rfl : k0 = k := by simpa using h
      exact ⟨le_rfl, h1, fun j hj1 hj2 => absurd (lt_of_le_of_lt hj1 hj2) (lt_irrefl _)⟩
    next h1 =>
      split at h
      next => simp at h
      next h2 =>
        obtain ⟨hk, hread, hprev⟩ := ih h
        refine ⟨le_trans (Nat.le_succ k0) hk, hread, fun j hj1 hj2 => ?_⟩
        rcases Nat.eq_or_lt_of_le hj1 with rfl | hj1
        · exact lt_of_not_le h1
        · exact hprev j hj1 hj2

theorem movePoll_timedOut {finalPos tol timeout : ℚ} {reading elapsed : ℕ → ℚ} :
    ∀ {fuel k0 k : ℕ},
      movePoll finalPos tol timeout reading elapsed fuel k0 = some (WaitOutcome.timedOut k) →
      timeout < elapsed k ∧ ∀ j, k0 ≤ j → j ≤ k → tol < |reading j - finalPos| := by
  intro fuel
  induction fuel with
  | zero => intro k0 k h; simp [movePoll] at h
  | succ n ih =>
    intro k0 k h
    unfold movePoll at h
    split at h
    next h1 => simp at h
    next h1 =>
      split at h
      next h2 =>
        obtain rfl : k0 = k := by simpa using h
        exact ⟨h2, fun j hj1 hj2 => by
          obtain rfl : j = _ := le_antisymm hj2 hj1
          exact lt_of_not_le h1⟩
      next h2 =>
        obtain ⟨ht, hprev⟩ := ih h
        refine ⟨ht, fun j hj1 hj2 => ?_⟩
        rcases Nat.eq_or_lt_of_le hj1 with rfl | hj1
        · exact lt_of_not_le h1
        · exact hprev j hj1 hj2

theorem floor_eval {q : ℚ} {z : ℤ} (h1 : (z : ℚ) ≤ q) (h2 : q < (z : ℚ) + 1) :
    ⌊q⌋ = z :=
  Int.floor_eq_iff.mpr ⟨h1, by exact_mod_cast h2⟩

/-- C4 counterexample: the wait loop of `Axis.move` polls
`get_position()` with the default `set_value=True`, i.e. the *commanded*
position (`oc`), not the actual position (`oa`). With an axis whose
commanded position reads `5` (the target) while its actual position reads
`7`, `move(5, wait=True, tolerance=0.01)` returns successfully on the
first poll even though the actual position is never within tolerance of
the target. -/
def mismatchOracle : PosOracle := ⟨fun _ => 5, fun _ => 7⟩

theorem c4_actual_position_counterexample :
    (Axis.move hpx 5 false true (1/100) none mismatchOracle
        (fun j => (j : ℚ)) 10).waitOutcome =
      some (some (WaitOutcome.completed 1)) ∧
    (1 : ℚ)/100 < |mismatchOracle.act 1 - 5| := by
  constructor
  · show some (movePoll (5 + (if false then mismatchOracle.cmd 0 else 0)) (1/100) _
        mismatchOracle.cmd (fun j => (j : ℚ)) 10 1) = _
    unfold movePoll
    rw [if_pos]
    simp only [mismatchOracle, if_neg Bool.false_ne_true]
    norm_num [mismatchOracle]
  · norm_num [mismatchOracle]

/-- C4 (amended): `Axis.move(position, wait=True)` blocks polling the
*commanded* axis position and returns only once the polled reading is
within `tolerance` of the target (every earlier poll being out of
tolerance), or fails with `Timeout` once the elapsed time exceeds the
timeout; the default timeout is `|final - initial| / max_speed + 30`. -/
theorem c4_move_wait_behaviour (ax : Axis) (position tol : ℚ) (relative : Bool)
    (oracle : PosOracle) (elapsed : ℕ → ℚ) (fuel k : ℕ) (out : MoveOut)
    (hout : out = Axis.move ax position relative true tol none oracle elapsed fuel) :
    out.timeoutUsed = |out.finalPos - oracle.cmd 0| / ax.max_speed + 30 ∧
    (out.waitOutcome = some (some (WaitOutcome.completed k)) →
      |oracle.cmd k - out.finalPos| ≤ tol ∧
      ∀ j, 1 ≤ j → j < k → tol < |oracle.cmd j - out.finalPos|) ∧
    (out.waitOutcome = some (some (WaitOutcome.timedOut k)) →
      out.timeoutUsed < elapsed k ∧
      ∀ j, 1 ≤ j → j ≤ k → tol < |oracle.cmd j - out.finalPos|) := by
  subst hout
  refine ⟨rfl, fun h => ?_, fun h => ?_⟩
  · have h' : movePoll (position + (if relative then oracle.cmd 0 else 0)) tol
        (|position + (if relative then oracle.cmd 0 else 0) - oracle.cmd 0| /
          ax.max_speed + 30) oracle.cmd elapsed fuel 1 =
        some (WaitOutcome.completed k) := by
      have := h
      simpa [Axis.move] using this
    obtain ⟨-, h1, h2⟩ := movePoll_completed h'
    exact ⟨h1, h2⟩
  · have h' : movePoll (position + (if relative then oracle.cmd 0 else 0)) tol
        (|position + (if relative then oracle.cmd 0 else 0) - oracle.cmd 0| /
          ax.max_speed + 30) oracle.cmd elapsed fuel 1 =
        some (WaitOutcome.timedOut k) := by
      have := h
      simpa [Axis.move] using this
    exact movePoll_timedOut h'

/-- C4 witness: axis at rest at `0`, commanded to `5`; the command
position reports `5` from the first poll on, so the wait completes at
poll 1 within tolerance. -/
def settleOracle : PosOracle := ⟨fun j => if j = 0 then 0 else 5, fun j => if j = 0 then 0 else 5⟩

theorem c4_move_wait_witness :
    (Axis.move hpx 5 false true (1/100) none settleOracle (fun j => (j : ℚ)) 10).timeoutUsed =
      |(Axis.move hpx 5 false true (1/100) none settleOracle (fun j => (j : ℚ)) 10).finalPos -
        settleOracle.cmd 0| / hpx.max_speed + 30 ∧
    |settleOracle.cmd 1 -
      (Axis.move hpx 5 false true (1/100) none settleOracle (fun j => (j : ℚ)) 10).finalPos| ≤
      1/100 := by
  have h := c4_move_wait_behaviour hpx 5 (1/100) false settleOracle (fun j => (j : ℚ)) 10 1 _ rfl
  refine ⟨h.1, (h.2.1 ?_).1⟩
  show some (movePoll (5 + (if false then settleOracle.cmd 0 else 0)) (1/100) _
      settleOracle.cmd (fun j => (j : ℚ)) 10 1) = _
  unfold movePoll
  rw [if_pos]
  simp only [settleOracle, if_neg Bool.false_ne_true]
  norm_num [settleOracle]

/-- C7 (amended): the step count transmitted to the motion hardware for a
move target is `int(position * scale_factor)` — truncation toward zero —
and the encoder comparator target is likewise `int(data)`; neither is
`round(position * scale_factor)`. -/
theorem c7_steps_truncation (ax : Axis) (position tol : ℚ) (relative wait : Bool)
    (timeout : Option ℚ) (oracle : PosOracle) (elapsed : ℕ → ℚ) (fuel : ℕ) :
    (Axis.move ax position relative wait tol timeout oracle elapsed fuel).steps =
      pyTrunc (position * ax.scale_factor) ∧
    comparatorData (position * ax.scale_factor) = pyTrunc (position * ax.scale_factor) :=
  ⟨rfl, rfl⟩

/-- C7 counterexample: for `position = 1/1250 mm` on the x axis
(`scale_factor = 2000`), `position * scale_factor = 1.6`; the transmitted
step count is `int(1.6) = 1`, while the claimed `round(1.6) = 2`. -/
theorem c7_round_counterexample :
    (Axis.move hpx (1/1250) false false (1/100) none mismatchOracle
        (fun j => (j : ℚ)) 0).steps = 1 ∧
    round ((1/1250 : ℚ) * hpx.scale_factor) = 2 := by
  constructor
  · show pyTrunc ((1/1250 : ℚ) * hpx.scale_factor) = 1
    unfold pyTrunc
    rw [if_neg (by norm_num [hpx])]
    rw [show ((1/1250 : ℚ) * hpx.scale_factor) = 8/5 by norm_num [hpx]]
    exact floor_eval (by norm_num) (by norm_num)
  · rw [round_eq]
    rw [show ((1/1250 : ℚ) * hpx.scale_factor + 1/2) = 21/10 by norm_num [hpx]]
    exact floor_eval (by norm_num) (by norm_num)

/-! ### `hp_line_scan.LineScan` -/

/-- Errors a line scan can raise: `InputError` (bad axis name, bad trigger
count), the `AssertionError` of `MetrolabProbe.getField`'s argument
checks, and `MissedTriggerError` carrying the offending comparator target
and the current encoder position. -/
inductive ScanError where
  | inputError
  | assertionFailed
  | missedTrigger (target now : ℚ)
deriving DecidableEq

/-- State built by `LineScan.__init__`: scan axis, range, precomputed
position values, mode flag, encoder axis key and on-the-fly speed (the
Python object leaves `enc_axis = None` and `speed` unset in
point-by-point mode). -/
structure LineScan where
  axisName : String
  axis : Axis
  start : ℚ
  stop : ℚ
  step : ℚ
  pos_values : List ℚ
  n_steps : ℕ
  on_the_fly : Bool
  enc_axis : Option String
  speed : Option ℚ
deriving DecidableEq

/-- `LineScan.__init__(axis_name, start, stop, step, ...,
min_trigger_time)`: rejects axis names other than `x`/`y`/`z`, computes
`pos_values = arange(start, stop, step)` and `n_steps = len(pos_values)`;
for `x`/`z` it selects on-the-fly mode, the Adlink card's `'z'` encoder
axis (line 43: `ad8102.axis['z']`), and
`speed = min(step / min_trigger_time, max_speed)`. -/
def LineScan.init (axis_name : String) (start stop step min_trigger_time : ℚ) :
    Except ScanError LineScan :=
  match motorAxis axis_name with
  | none => .error .inputError
  | some ax =>
    let pos_values := arange start stop step
    if axis_name == "x" || axis_name == "z" then
      .ok ⟨axis_name, ax, start, stop, step, pos_values, pos_values.length, true,
           some "z", some (scanSpeed step min_trigger_time ax.max_speed)⟩
    else
      .ok ⟨axis_name, ax, start, stop, step, pos_values, pos_values.length, false,
           none, none⟩

/-- One device operation issued during `LineScan.run`. -/
inductive Ev where
  | moveAxis (target : ℚ) (wait : Bool)
  | stopAxis
  | setSpeed (speed : Option ℚ)
  | abortTrigger
  | setTriggerSource (src : String)
  | setTriggerCount (count : ℕ)
  | armTrigger
  | assertTrigger
  | encSetPosition (value : ℚ)
  | encGetPosition
  | encWaitForPosition (target : ℚ)
  | fetchField (count : ℕ)
deriving DecidableEq

/-- Hardware readings a run consumes: `encRead n` is the reply to the
`n`-th `enc_axis.getPosition()` call inside the scan loop, `mcActualPos`
the motor controller's actual position (`get_position(set_value=False)`)
at the synchronisation step, and `buffer i` the `i`-th buffered
`(Bx, By, Bz)` sample the instrument returns to `fetchBuffered`. -/
structure ScanEnv where
  encRead : ℕ → ℚ
  mcActualPos : ℚ
  buffer : ℕ → ℚ × ℚ × ℚ

/-- The `for i, pos in enumerate(self.pos_values[1:])` loop of
`LineScan.scanOnTheFly` (lines 85-92): per target, read the encoder
position; if `np.copysign(1, trigger_at - pos_now) != direction_sign` the
target has been passed — raise `MissedTriggerError(trigger_at, pos_now)`;
otherwise `waitForPosition(trigger_at)` then `assert_trigger()`. Returns
the events issued and the missed-trigger payload, if any. -/
def scanOnTheFlyLoop (scale d : ℚ) (encRead : ℕ → ℚ) :
    ℕ → List ℚ → List Ev × Option (ℚ × ℚ)
  | _, [] => ([], none)
  | i, pos :: rest =>
    if copysignOne (pos * scale - encRead i) ≠ d then
      ([Ev.encGetPosition], some (pos * scale, encRead i))
    else
      let r := scanOnTheFlyLoop scale d encRead (i + 1) rest
      (Ev.encGetPosition :: Ev.encWaitForPosition (pos * scale) ::
        Ev.assertTrigger :: r.1, r.2)

/-- `MetrolabProbe.getField('all', count=n, fetch=True)`: one
`:FETC:ARR:{X,Y,Z}?` query per component, each returning `count` values,
transposed into `count` field triples. The instrument's buffered replies
are modelled by `buffer`. -/
def getFieldAll (count : ℕ) (buffer : ℕ → ℚ × ℚ × ℚ) : List (ℚ × ℚ × ℚ) :=
  (List.range count).map buffer

/-- Events of `LineScan.run` up to and including the first trigger:
move to start (`wait=True`), `abortTrigger`, `setTriggerSource(BUS)`,
`setTriggerCount(n_steps)`, `armTrigger`, first `assert_trigger()`. -/
def preTriggerEvents (ls : LineScan) : List Ev :=
  [.moveAxis ls.start true, .abortTrigger, .setTriggerSource "BUS",
   .setTriggerCount ls.n_steps, .armTrigger, .assertTrigger]

/-- On-the-fly setup (run lines 67-71 and scanOnTheFly lines 81-83): set
scan speed, preload the encoder with the motor controller's reported
position times the scale factor, and start the continuous move to
`stop + direction_sign * 0.1`. -/
def flySetupEvents (ls : LineScan) (env : ScanEnv) : List Ev :=
  [.setSpeed ls.speed, .encSetPosition (env.mcActualPos * ls.axis.scale_factor),
   .moveAxis (ls.stop + copysignOne (ls.stop - ls.start) * (1/10)) false]

/-- `LineScan.scanPointByPoint`: per remaining position, move-and-wait
then `assert_trigger()`; no encoder operation. -/
def pointByPointEvents (ls : LineScan) : List Ev :=
  (ls.pos_values.drop 1).flatMap (fun pos => [Ev.moveAxis pos true, Ev.assertTrigger])

/-- Outcome of one `LineScan.run`: the device operations issued in order,
the error raised (if any), and the resulting `field_values` (the
`np.zeros((n_steps, 3))` array from `__init__` when the run raised before
fetching). -/
structure RunResult where
  events : List Ev
  error : Option ScanError
  fieldValues : List (ℚ × ℚ × ℚ)
deriving DecidableEq

/-- `LineScan.run` (lines 52-77): move to start, abort + configure + arm
the instrument for `n_steps` triggers, take the first reading at rest,
then scan on-the-fly (with encoder sync) or point-by-point, and finally
fetch the `n_steps` buffered samples. `setTriggerCount` raises
`InputError` for a zero count, and `getField` asserts
`1 <= count <= 2048`; an error propagates immediately, skipping the rest
of the run. -/
def LineScan.run (ls : LineScan) (env : ScanEnv) : RunResult :=
  if ls.n_steps = 0 then
    ⟨[.moveAxis ls.start true, .abortTrigger, .setTriggerSource "BUS"],
     some .inputError, List.replicate ls.n_steps (0, 0, 0)⟩
  else if ls.on_the_fly then
    let r := scanOnTheFlyLoop ls.axis.scale_factor (copysignOne (ls.stop - ls.start))
      env.encRead 0 (ls.pos_values.drop 1)
    match r.2 with
    | some tp =>
      ⟨preTriggerEvents ls ++ flySetupEvents ls env ++ r.1,
       some (.missedTrigger tp.1 tp.2), List.replicate ls.n_steps (0, 0, 0)⟩
    | none =>
      if ls.n_steps ≤ 2048 then
        ⟨preTriggerEvents ls ++ flySetupEvents ls env ++ r.1 ++
          [.setSpeed none, .fetchField ls.n_steps],
         none, getFieldAll ls.n_steps env.buffer⟩
      else
        ⟨preTriggerEvents ls ++ flySetupEvents ls env ++ r.1 ++ [.setSpeed none],
         some .assertionFailed, List.replicate ls.n_steps (0, 0, 0)⟩
  else
    if ls.n_steps ≤ 2048 then
      ⟨preTriggerEvents ls ++ pointByPointEvents ls ++ [.fetchField ls.n_steps],
       none, getFieldAll ls.n_steps env.buffer⟩
    else
      ⟨preTriggerEvents ls ++ pointByPointEvents ls,
       some .assertionFailed, List.replicate ls.n_steps (0, 0, 0)⟩

/-! ### Trace observations -/

/-- Is the event an `assert_trigger()` pulse? -/
def isAssertEv : Ev → Bool
  | .assertTrigger => true
  | _ => false

/-- Is the event a buffered fetch? -/
def isFetchEv : Ev → Bool
  | .fetchField _ => true
  | _ => false

/-- Is the event an operation on the encoder/trigger device? -/
def isEncoderEv : Ev → Bool
  | .encSetPosition _ => true
  | .encGetPosition => true
  | .encWaitForPosition _ => true
  | _ => false

/-- Targets of the comparator-and-wait calls (`waitForPosition`), in
order. -/
def waitTargets : List Ev → List ℚ
  | [] => []
  | .encWaitForPosition t :: rest => t :: waitTargets rest
  | _ :: rest => waitTargets rest

/-- The axis position (engineering units) at which each trigger pulse was
issued: `moveAxis` puts the axis at its target, `encWaitForPosition t`
returns control with the axis at `t / scale`, and each `assertTrigger`
samples at the current position. -/
def sampledTargets (scale : ℚ) : List Ev → ℚ → List ℚ
  | [], _ => []
  | .moveAxis t _ :: rest, _ => sampledTargets scale rest t
  | .encWaitForPosition t :: rest, _ => sampledTargets scale rest (t / scale)
  | .assertTrigger :: rest, cur => cur :: sampledTargets scale rest cur
  | _ :: rest, cur => sampledTargets scale rest cur

/-! ### Structural lemmas -/

theorem motorAxis_cases {name : String} {ax : Axis} (h : motorAxis name = some ax) :
    ax = hpx ∨ ax = hpy ∨ ax = hpz := by
  unfold motorAxis at h
  split_ifs at h <;> simp_all

theorem init_ok {name : String} {start stop step mtt : ℚ} {ls : LineScan}
    (h : LineScan.init name start stop step mtt = .ok ls) :
    (ls.axis = hpx ∨ ls.axis = hpy ∨ ls.axis = hpz) ∧
    ls.start = start ∧ ls.stop = stop ∧ ls.step = step ∧
    ls.pos_values = arange start stop step ∧
    ls.n_steps = ls.pos_values.length ∧
    (ls.on_the_fly = true → ls.speed = some (scanSpeed step mtt ls.axis.max_speed)) := by
  unfold LineScan.init at h
  split at h
  · exact absurd h (by simp)
  next ax hm =>
    have hax := motorAxis_cases hm
    split at h
    · obtain rfl := (Except.ok.injEq _ _).mp h.symm
      exact ⟨hax, rfl, rfl, rfl, rfl, rfl, fun _ => rfl⟩
    · obtain rfl := (Except.ok.injEq _ _).mp h.symm
      exact ⟨hax, rfl, rfl, rfl, rfl, rfl, fun hf => by simp at hf⟩

theorem axis_scale_ne_zero {ls : LineScan}
    (h : ls.axis = hpx ∨ ls.axis = hpy ∨ ls.axis = hpz) :
    ls.axis.scale_factor ≠ 0 := by
  rcases h with h | h | h <;> rw [h] <;> norm_num [hpx, hpy, hpz]

/-- A nonempty `arange` starts at `start`. -/
theorem arange_cons (start stop step : ℚ) (h : (arange start stop step).length ≠ 0) :
    arange start stop step = start :: (arange start stop step).drop 1 := by
  unfold arange npArange at *
  cases hn : npArangeLen start (stop + 1/500) step with
  | zero => rw [hn] at h; simp at h
  | succ m =>
    rw [List.range_succ_eq_map]
    simp only [List.map_cons, List.drop_succ_cons, List.drop_zero]
    norm_num

/-- `copysignOne` only takes the values `1` and `-1`. -/
theorem copysignOne_cases (x : ℚ) : copysignOne x = 1 ∨ copysignOne x = -1 := by
  unfold copysignOne
  split <;> simp

/-- A position strictly beyond the target in the direction of travel makes
the sign test of line 89 fire. -/
theorem beyond_sign_mismatch {d target now : ℚ} (hd : d = 1 ∨ d = -1)
    (h : d * (now - target) > 0) : copysignOne (target - now) ≠ d := by
  unfold copysignOne
  rcases hd with rfl | rfl
  · rw [if_pos (by linarith)]
    norm_num
  · rw [if_neg (by push_neg; linarith)]
    norm_num

/-- Events of an error-free pass of the on-the-fly loop. -/
theorem flyLoop_none_events (scale d : ℚ) (encRead : ℕ → ℚ) :
    ∀ (targets : List ℚ) (i : ℕ),
      (scanOnTheFlyLoop scale d encRead i targets).2 = none →
      (scanOnTheFlyLoop scale d encRead i targets).1 =
        targets.flatMap (fun pos =>
          [Ev.encGetPosition, Ev.encWaitForPosition (pos * scale), Ev.assertTrigger]) := by
  intro targets
  induction targets with
  | nil => intro i _; rfl
  | cons t rest ih =>
    intro i h2
    unfold scanOnTheFlyLoop at h2 ⊢
    split at h2
    · simp at h2
    next hc =>
      rw [if_neg hc, List.flatMap_cons]
      simp only [List.cons_append, List.nil_append, List.cons.injEq, true_and]
      exact ih (i + 1) h2

/-- If iteration `i` is the first to fail the sign test, the loop raises
`MissedTriggerError` with that target and encoder reading, having issued
only the events of the `i` earlier iterations (in particular no
`waitForPosition` for the failing target). -/
theorem flyLoop_fail (scale d : ℚ) (encRead : ℕ → ℚ) :
    ∀ (targets : List ℚ) (k i : ℕ) (pos : ℚ),
      targets[i]? = some pos →
      (∀ j q, j < i → targets[j]? = some q →
        copysignOne (q * scale - encRead (k + j)) = d) →
      copysignOne (pos * scale - encRead (k + i)) ≠ d →
      scanOnTheFlyLoop scale d encRead k targets =
        ((targets.take i).flatMap (fun p =>
          [Ev.encGetPosition, Ev.encWaitForPosition (p * scale), Ev.assertTrigger]) ++
            [Ev.encGetPosition],
         some (pos * scale, encRead (k + i))) := by
  intro targets
  induction targets with
  | nil => intro k i pos h; simp at h
  | cons t rest ih =>
    intro k i pos hget hprev hfail
    cases i with
    | zero =>
      obtain rfl : t = pos := by simpa using hget
      unfold scanOnTheFlyLoop
      rw [if_pos (by simpa using hfail)]
      simp
    | succ i =>
      have h0 : copysignOne (t * scale - encRead (k + 0)) = d :=
        hprev 0 t (Nat.succ_pos i) (by simp)
      unfold scanOnTheFlyLoop
      rw [if_neg (by simpa using h0)]
      have hrec := ih (k + 1) i pos (by simpa using hget)
        (fun j q hj hq => by
          have := hprev (j + 1) q (Nat.succ_lt_succ hj) (by simpa using hq)
          simpa [Nat.add_assoc, Nat.add_comm 1 j] using this)
        (by simpa [Nat.add_assoc, Nat.add_comm 1 i] using hfail)
      simp only [hrec, List.take_succ_cons, List.flatMap_cons]
      simp [Nat.add_assoc, Nat.add_comm 1 i]

/-! ### Counting and extraction lemmas -/

theorem waitTargets_append (xs ys : List Ev) :
    waitTargets (xs ++ ys) = waitTargets xs ++ waitTargets ys := by
  induction xs with
  | nil => rfl
  | cons e rest ih =>
    cases e <;> simp [waitTargets, ih]

theorem flyBlock_assert_count (scale : ℚ) (targets : List ℚ) :
    (targets.flatMap (fun pos =>
      [Ev.encGetPosition, Ev.encWaitForPosition (pos * scale), Ev.assertTrigger])).countP
        isAssertEv = targets.length := by
  induction targets with
  | nil => rfl
  | cons t rest ih => simp [List.flatMap_cons, List.countP_append, ih, List.countP_cons, isAssertEv]

theorem flyBlock_fetch_count (scale : ℚ) (targets : List ℚ) :
    (targets.flatMap (fun pos =>
      [Ev.encGetPosition, Ev.encWaitForPosition (pos * scale), Ev.assertTrigger])).countP
        isFetchEv = 0 := by
  induction targets with
  | nil => rfl
  | cons t rest ih => simp [List.flatMap_cons, List.countP_append, ih, List.countP_cons, isFetchEv]

theorem flyBlock_waitTargets (scale : ℚ) (targets : List ℚ) :
    waitTargets (targets.flatMap (fun pos =>
      [Ev.encGetPosition, Ev.encWaitForPosition (pos * scale), Ev.assertTrigger])) =
      targets.map (fun pos => pos * scale) := by
  induction targets with
  | nil => rfl
  | cons t rest ih =>
    rw [List.flatMap_cons, waitTargets_append]
    simp [waitTargets, ih]

theorem pbpBlock_assert_count (targets : List ℚ) :
    (targets.flatMap (fun pos => [Ev.moveAxis pos true, Ev.assertTrigger])).countP
      isAssertEv = targets.length := by
  induction targets with
  | nil => rfl
  | cons t rest ih => simp [List.flatMap_cons, List.countP_append, ih, List.countP_cons, isAssertEv]

theorem pbpBlock_fetch_count (targets : List ℚ) :
    (targets.flatMap (fun pos => [Ev.moveAxis pos true, Ev.assertTrigger])).countP
      isFetchEv = 0 := by
  induction targets with
  | nil => rfl
  | cons t rest ih => simp [List.flatMap_cons, List.countP_append, ih, List.countP_cons, isFetchEv]

theorem pbpBlock_encoder_count (targets : List ℚ) :
    (targets.flatMap (fun pos => [Ev.moveAxis pos true, Ev.assertTrigger])).countP
      isEncoderEv = 0 := by
  induction targets with
  | nil => rfl
  | cons t rest ih => simp [List.flatMap_cons, List.countP_append, ih, List.countP_cons, isEncoderEv]

theorem sampledTargets_pbp (scale : ℚ) :
    ∀ (targets : List ℚ) (tail : List Ev) (cur : ℚ),
      (∀ c : ℚ, sampledTargets scale tail c = []) →
      sampledTargets scale
        (targets.flatMap (fun pos => [Ev.moveAxis pos true, Ev.assertTrigger]) ++ tail) cur =
        targets := by
  intro targets
  induction targets with
  | nil => intro tail cur h; simpa using h cur
  | cons t rest ih =>
    intro tail cur h
    rw [List.flatMap_cons]
    simp only [List.cons_append, List.append_assoc, sampledTargets]
    exact congrArg (t :: ·) (ih tail t h)

theorem sampledTargets_fly (scale : ℚ) (hscale : scale ≠ 0) :
    ∀ (targets : List ℚ) (tail : List Ev) (cur : ℚ),
      (∀ c : ℚ, sampledTargets scale tail c = []) →
      sampledTargets scale
        (targets.flatMap (fun pos =>
          [Ev.encGetPosition, Ev.encWaitForPosition (pos * scale), Ev.assertTrigger]) ++ tail)
          cur = targets := by
  intro targets
  induction targets with
  | nil => intro tail cur h; simpa using h cur
  | cons t rest ih =>
    intro tail cur h
    rw [List.flatMap_cons, List.append_assoc]
    have step : sampledTargets scale
        (([Ev.encGetPosition, Ev.encWaitForPosition (t * scale), Ev.assertTrigger] : List Ev) ++
          (rest.flatMap (fun pos =>
            [Ev.encGetPosition, Ev.encWaitForPosition (pos * scale), Ev.assertTrigger]) ++ tail))
          cur =
        t * scale / scale :: sampledTargets scale
          (rest.flatMap (fun pos =>
            [Ev.encGetPosition, Ev.encWaitForPosition (pos * scale), Ev.assertTrigger]) ++ tail)
          (t * scale / scale) := rfl
    rw [step, mul_div_cancel_right₀ t hscale]
    exact congrArg (t :: ·) (ih tail t h)

/-! ### Unfolding lemmas for `LineScan.run` -/

theorem run_pbp_ok {ls : LineScan} {env : ScanEnv} (h0 : ls.n_steps ≠ 0)
    (hfly : ls.on_the_fly = false) (h2048 : ls.n_steps ≤ 2048) :
    ls.run env =
      ⟨preTriggerEvents ls ++ pointByPointEvents ls ++ [Ev.fetchField ls.n_steps],
       none, getFieldAll ls.n_steps env.buffer⟩ := by
  unfold LineScan.run
  rw [if_neg h0, if_neg (by simp [hfly]), if_pos h2048]

theorem run_fly_ok {ls : LineScan} {env : ScanEnv} (h0 : ls.n_steps ≠ 0)
    (hfly : ls.on_the_fly = true) (h2048 : ls.n_steps ≤ 2048)
    (hloop : (scanOnTheFlyLoop ls.axis.scale_factor (copysignOne (ls.stop - ls.start))
      env.encRead 0 (ls.pos_values.drop 1)).2 = none) :
    ls.run env =
      ⟨preTriggerEvents ls ++ flySetupEvents ls env ++
        (scanOnTheFlyLoop ls.axis.scale_factor (copysignOne (ls.stop - ls.start))
          env.encRead 0 (ls.pos_values.drop 1)).1 ++
        [Ev.setSpeed none, Ev.fetchField ls.n_steps],
       none, getFieldAll ls.n_steps env.buffer⟩ := by
  unfold LineScan.run
  rw [if_neg h0, if_pos hfly]
  simp only [hloop, if_pos h2048]

theorem run_fly_err {ls : LineScan} {env : ScanEnv} {t p : ℚ} (h0 : ls.n_steps ≠ 0)
    (hfly : ls.on_the_fly = true)
    (hloop : (scanOnTheFlyLoop ls.axis.scale_factor (copysignOne (ls.stop - ls.start))
      env.encRead 0 (ls.pos_values.drop 1)).2 = some (t, p)) :
    ls.run env =
      ⟨preTriggerEvents ls ++ flySetupEvents ls env ++
        (scanOnTheFlyLoop ls.axis.scale_factor (copysignOne (ls.stop - ls.start))
          env.encRead 0 (ls.pos_values.drop 1)).1,
       some (.missedTrigger t p), List.replicate ls.n_steps (0, 0, 0)⟩ := by
  unfold LineScan.run
  rw [if_neg h0, if_pos hfly]
  simp only [hloop]

theorem run_ok_inv {ls : LineScan} {env : ScanEnv} (h : (ls.run env).error = none) :
    ls.n_steps ≠ 0 ∧ ls.n_steps ≤ 2048 ∧
    (ls.on_the_fly = true →
      (scanOnTheFlyLoop ls.axis.scale_factor (copysignOne (ls.stop - ls.start))
        env.encRead 0 (ls.pos_values.drop 1)).2 = none) := by
  by_cases h0 : ls.n_steps = 0
  · exfalso
    unfold LineScan.run at h
    rw [if_pos h0] at h
    simp at h
  by_cases hfly : ls.on_the_fly = true
  · rcases hloop : (scanOnTheFlyLoop ls.axis.scale_factor (copysignOne (ls.stop - ls.start))
        env.encRead 0 (ls.pos_values.drop 1)).2 with - | tp
    · by_cases h2048 : ls.n_steps ≤ 2048
      · exact ⟨h0, h2048, fun _ => rfl⟩
      · exfalso
        unfold LineScan.run at h
        rw [if_neg h0, if_pos hfly] at h
        simp only [hloop, if_neg h2048] at h
        simp at h
    · exfalso
      rw [run_fly_err h0 hfly hloop] at h
      simp at h
  · by_cases h2048 : ls.n_steps ≤ 2048
    · exact ⟨h0, h2048, fun hf => absurd hf hfly⟩
    · exfalso
      unfold LineScan.run at h
      rw [if_neg h0, if_neg hfly, if_neg h2048] at h
      simp at h

/-! ### Concrete `__init__` computations -/

theorem init_x (start stop step mtt : ℚ) :
    LineScan.init "x" start stop step mtt =
      .ok ⟨"x", hpx, start, stop, step, arange start stop step,
           (arange start stop step).length, true, some "z",
           some (scanSpeed step mtt hpx.max_speed)⟩ := rfl

theorem init_y (start stop step mtt : ℚ) :
    LineScan.init "y" start stop step mtt =
      .ok ⟨"y", hpy, start, stop, step, arange start stop step,
           (arange start stop step).length, false, none, none⟩ := rfl

theorem init_z (start stop step mtt : ℚ) :
    LineScan.init "z" start stop step mtt =
      .ok ⟨"z", hpz, start, stop, step, arange start stop step,
           (arange start stop step).length, true, some "z",
           some (scanSpeed step mtt hpz.max_speed)⟩ := rfl

/-! ### Demonstration scans used by the witnesses -/

/-- `arange(0, 1, 0.5) = [0, 0.5, 1]`. -/
theorem arange_demo : arange 0 1 (1/2) = [0, 1/2, 1] := by
  have h := arange_exact 0 (1/2) 2 (by norm_num)
  rw [show (0 : ℚ) + (2 : ℕ) * (1/2) = 1 by norm_num] at h
  rw [h]
  simp [List.range_succ]

/-- A benign environment: the encoder always reads `0` (never past any
ascending target) and the instrument buffers zero field. -/
def envDemo : ScanEnv := ⟨fun _ => 0, 0, fun _ => (0, 0, 0)⟩

/-- An environment whose encoder reads `2500` from the second loop
iteration on — past the second scaled x-axis target `2000`. -/
def envMiss : ScanEnv := ⟨fun j => if j = 0 then 0 else 2500, 0, fun _ => (0, 0, 0)⟩

/-- `LineScan('z', 0, 1, 0.5)` with `min_trigger_time = 0.2`. -/
def lsZdemo : LineScan :=
  ⟨"z", hpz, 0, 1, 1/2, arange 0 1 (1/2), (arange 0 1 (1/2)).length, true, some "z",
   some (scanSpeed (1/2) (1/5) hpz.max_speed)⟩

/-- `LineScan('y', 0, 1, 0.5)` with `min_trigger_time = 0.2`. -/
def lsYdemo : LineScan :=
  ⟨"y", hpy, 0, 1, 1/2, arange 0 1 (1/2), (arange 0 1 (1/2)).length, false, none, none⟩

/-- `LineScan('x', 0, 1, 0.5)` with `min_trigger_time = 0.2`. -/
def lsXdemo : LineScan :=
  ⟨"x", hpx, 0, 1, 1/2, arange 0 1 (1/2), (arange 0 1 (1/2)).length, true, some "z",
   some (scanSpeed (1/2) (1/5) hpx.max_speed)⟩

theorem lsZdemo_drop : lsZdemo.pos_values.drop 1 = [1/2, 1] := by
  show (arange 0 1 (1/2)).drop 1 = [1/2, 1]
  rw [arange_demo]
  rfl

theorem lsZdemo_loop :
    (scanOnTheFlyLoop lsZdemo.axis.scale_factor
      (copysignOne (lsZdemo.stop - lsZdemo.start)) envDemo.encRead 0
      (lsZdemo.pos_values.drop 1)).2 = none := by
  have hd : copysignOne (lsZdemo.stop - lsZdemo.start) = 1 := by
    unfold copysignOne
    rw [if_neg (by norm_num [lsZdemo])]
  rw [hd, lsZdemo_drop]
  have h1 : copysignOne ((1/2 : ℚ) * lsZdemo.axis.scale_factor - envDemo.encRead 0) = 1 := by
    unfold copysignOne
    rw [if_neg]
    show ¬((1/2 : ℚ) * hpz.scale_factor - (0 : ℚ) < 0)
    norm_num [hpz]
  have h2 : copysignOne ((1 : ℚ) * lsZdemo.axis.scale_factor - envDemo.encRead 1) = 1 := by
    unfold copysignOne
    rw [if_neg]
    show ¬((1 : ℚ) * hpz.scale_factor - (0 : ℚ) < 0)
    norm_num [hpz]
  unfold scanOnTheFlyLoop
  rw [if_neg (not_not_intro h1)]
  unfold scanOnTheFlyLoop
  rw [if_neg (not_not_intro h2)]
  rfl

theorem lsZdemo_n_steps : lsZdemo.n_steps = 3 := by
  show (arange 0 1 (1/2)).length = 3
  rw [arange_demo]
  rfl

theorem lsZdemo_run_ok : (lsZdemo.run envDemo).error = none := by
  rw [run_fly_ok (by rw [lsZdemo_n_steps]; omega) rfl (by rw [lsZdemo_n_steps]; omega)
    lsZdemo_loop]

/-! ### Per-segment trace facts -/

theorem pre_assert_count (ls : LineScan) : (preTriggerEvents ls).countP isAssertEv = 1 := rfl

theorem pre_fetch_count (ls : LineScan) : (preTriggerEvents ls).countP isFetchEv = 0 := rfl

theorem pre_encoder_count (ls : LineScan) : (preTriggerEvents ls).countP isEncoderEv = 0 := rfl

theorem setup_assert_count (ls : LineScan) (env : ScanEnv) :
    (flySetupEvents ls env).countP isAssertEv = 0 := rfl

theorem setup_fetch_count (ls : LineScan) (env : ScanEnv) :
    (flySetupEvents ls env).countP isFetchEv = 0 := rfl

theorem pbp_assert_count (ls : LineScan) :
    (pointByPointEvents ls).countP isAssertEv = (ls.pos_values.drop 1).length :=
  pbpBlock_assert_count _

theorem pbp_fetch_count (ls : LineScan) : (pointByPointEvents ls).countP isFetchEv = 0 :=
  pbpBlock_fetch_count _

theorem pbp_encoder_count (ls : LineScan) : (pointByPointEvents ls).countP isEncoderEv = 0 :=
  pbpBlock_encoder_count _

theorem pre_waitTargets (ls : LineScan) : waitTargets (preTriggerEvents ls) = [] := rfl

theorem setup_waitTargets (ls : LineScan) (env : ScanEnv) :
    waitTargets (flySetupEvents ls env) = [] := rfl

theorem sampled_pre (ls : LineScan) (scale : ℚ) (rest : List Ev) (cur : ℚ) :
    sampledTargets scale (preTriggerEvents ls ++ rest) cur =
      ls.start :: sampledTargets scale rest ls.start := rfl

theorem sampled_setup (ls : LineScan) (env : ScanEnv) (scale : ℚ) (rest : List Ev) (cur : ℚ) :
    sampledTargets scale (flySetupEvents ls env ++ rest) cur =
      sampledTargets scale rest
        (ls.stop + copysignOne (ls.stop - ls.start) * (1/10)) := rfl

theorem run_no_encoder_pbp {ls : LineScan} {env : ScanEnv} (hfly : ls.on_the_fly = false) :
    (ls.run env).events.countP isEncoderEv = 0 := by
  by_cases h0 : ls.n_steps = 0
  · unfold LineScan.run
    rw [if_pos h0]
    rfl
  · by_cases h2048 : ls.n_steps ≤ 2048
    · rw [run_pbp_ok h0 hfly h2048]
      show ((preTriggerEvents ls ++ pointByPointEvents ls) ++
        [Ev.fetchField ls.n_steps]).countP isEncoderEv = 0
      rw [List.countP_append, List.countP_append, pre_encoder_count, pbp_encoder_count]
      rfl
    · unfold LineScan.run
      rw [if_neg h0, if_neg (by simp [hfly]), if_neg h2048]
      show (preTriggerEvents ls ++ pointByPointEvents ls).countP isEncoderEv = 0
      rw [List.countP_append, pre_encoder_count, pbp_encoder_count]

/-! ### The claims about `LineScan.run` -/

/-- C3: in an on-the-fly scan, if at the moment target `i` (of the
positions after the first) is to be armed the encoder already reads a
position strictly beyond that target in the direction of travel — and all
earlier targets passed their sign check — the run raises
`MissedTriggerError` carrying the offending (scaled) target and the
current encoder position, and no `waitForPosition` was ever issued for
that target: the trace contains exactly the waits of the `i` earlier
iterations. -/
theorem c3_missed_trigger_before_wait (name : String) (start stop step mtt : ℚ)
    (env : ScanEnv) (ls : LineScan) (i : ℕ) (pos : ℚ)
    (hinit : LineScan.init name start stop step mtt = .ok ls)
    (hfly : ls.on_the_fly = true)
    (hi : (ls.pos_values.drop 1)[i]? = some pos)
    (hprev : ∀ j q, j < i → (ls.pos_values.drop 1)[j]? = some q →
      copysignOne (q * ls.axis.scale_factor - env.encRead j) =
        copysignOne (ls.stop - ls.start))
    (hbeyond : copysignOne (ls.stop - ls.start) *
      (env.encRead i - pos * ls.axis.scale_factor) > 0) :
    (ls.run env).error =
      some (.missedTrigger (pos * ls.axis.scale_factor) (env.encRead i)) ∧
    waitTargets (ls.run env).events =
      ((ls.pos_values.drop 1).take i).map (fun q => q * ls.axis.scale_factor) := by
  have hfail := beyond_sign_mismatch (copysignOne_cases (ls.stop - ls.start)) hbeyond
  have hloop := flyLoop_fail ls.axis.scale_factor (copysignOne (ls.stop - ls.start))
    env.encRead (ls.pos_values.drop 1) 0 i pos hi
    (fun j q hj hq => by simpa using hprev j q hj hq)
    (by simpa using hfail)
  have h0 : ls.n_steps ≠ 0 := by
    obtain ⟨-, -, -, -, -, hn, -⟩ := init_ok hinit
    rw [hn]
    intro hcontra
    rw [List.eq_nil_of_length_eq_zero hcontra] at hi
    simp at hi
  have hloop2 : (scanOnTheFlyLoop ls.axis.scale_factor (copysignOne (ls.stop - ls.start))
      env.encRead 0 (ls.pos_values.drop 1)).2 =
      some (pos * ls.axis.scale_factor, env.encRead i) := by
    rw [hloop]
    simp
  rw [run_fly_err h0 hfly hloop2]
  refine ⟨rfl, ?_⟩
  show waitTargets ((preTriggerEvents ls ++ flySetupEvents ls env) ++ _) = _
  rw [waitTargets_append, waitTargets_append, pre_waitTargets, setup_waitTargets]
  rw [show (scanOnTheFlyLoop ls.axis.scale_factor (copysignOne (ls.stop - ls.start))
      env.encRead 0 (ls.pos_values.drop 1)).1 =
    ((ls.pos_values.drop 1).take i).flatMap (fun p =>
      [Ev.encGetPosition, Ev.encWaitForPosition (p * ls.axis.scale_factor),
        Ev.assertTrigger]) ++ [Ev.encGetPosition] from by rw [hloop]]
  rw [waitTargets_append, flyBlock_waitTargets]
  simp [waitTargets]

/-- C3 witness: `LineScan('x', 0, 1, 0.5)`; the first scaled target
(`1000`) passes its sign check with the encoder at `0`, but when the
second target (`1 * 2000 = 2000`) is armed the encoder already reads
`2500` — the run fails with `MissedTriggerError(2000, 2500)` and the only
comparator wait issued was for the first target. -/
theorem c3_missed_trigger_witness :
    (lsXdemo.run envMiss).error =
      some (.missedTrigger ((1 : ℚ) * lsXdemo.axis.scale_factor) (envMiss.encRead 1)) ∧
    waitTargets (lsXdemo.run envMiss).events =
      ((lsXdemo.pos_values.drop 1).take 1).map (fun q => q * lsXdemo.axis.scale_factor) := by
  have hdrop : lsXdemo.pos_values.drop 1 = [1/2, 1] := by
    show (arange 0 1 (1/2)).drop 1 = [1/2, 1]
    rw [arange_demo]
    rfl
  refine c3_missed_trigger_before_wait "x" 0 1 (1/2) (1/5) envMiss lsXdemo 1 1
    (init_x 0 1 (1/2) (1/5)) rfl (by rw [hdrop]; rfl) ?_ ?_
  · intro j q hj hq
    obtain rfl : j = 0 := Nat.lt_one_iff.mp hj
    rw [hdrop] at hq
    obtain rfl : (1/2 : ℚ) = q := by simpa using hq
    have hl : copysignOne ((1/2 : ℚ) * lsXdemo.axis.scale_factor - envMiss.encRead 0) = 1 := by
      unfold copysignOne
      rw [if_neg]
      show ¬((1/2 : ℚ) * hpx.scale_factor - (0 : ℚ) < 0)
      norm_num [hpx]
    have hr : copysignOne (lsXdemo.stop - lsXdemo.start) = 1 := by
      unfold copysignOne
      rw [if_neg]
      show ¬((1 : ℚ) - 0 < 0)
      norm_num
    rw [hl, hr]
  · have hr : copysignOne (lsXdemo.stop - lsXdemo.start) = 1 := by
      unfold copysignOne
      rw [if_neg]
      show ¬((1 : ℚ) - 0 < 0)
      norm_num
    rw [hr]
    show (1 : ℚ) * ((2500 : ℚ) - 1 * hpx.scale_factor) > 0
    norm_num [hpx]

/-- C5: the on-the-fly scan speed is `min(step / minTriggerInterval,
maxSpeed)`, hence never exceeds the axis's configured maximum; every
on-the-fly `LineScan` stores exactly this speed, and the spec's scenario
`step=0.5, minTriggerInterval=0.2, maxSpeed=30` gives `2.5`. -/
theorem c5_speed_bounded :
    (∀ step mtt ms : ℚ, scanSpeed step mtt ms = min (step / mtt) ms ∧
      scanSpeed step mtt ms ≤ ms) ∧
    (∀ (name : String) (start stop step mtt : ℚ) (ls : LineScan),
      LineScan.init name start stop step mtt = .ok ls → ls.on_the_fly = true →
      ls.speed = some (scanSpeed step mtt ls.axis.max_speed)) ∧
    scanSpeed (1/2) (1/5) 30 = 5/2 := by
  refine ⟨fun step mtt ms => ⟨rfl, min_le_right _ _⟩,
    fun name start stop step mtt ls h hf => (init_ok h).2.2.2.2.2.2 hf, ?_⟩
  unfold scanSpeed
  rw [min_eq_left (by norm_num)]
  norm_num

/-- C5 witness: `LineScan('z', 0, 1, 0.5)` with `min_trigger_time = 0.2`
stores `speed = scanSpeed 0.5 0.2 maxSpeed`. -/
theorem c5_speed_witness :
    lsZdemo.speed = some (scanSpeed (1/2) (1/5) lsZdemo.axis.max_speed) :=
  c5_speed_bounded.2.1 "z" 0 1 (1/2) (1/5) lsZdemo (init_z 0 1 (1/2) (1/5)) rfl

/-- C6: an error-free `run()` first moves to start, then aborts and arms
the instrument for `count = len(pos_values)` triggers and asserts the
first trigger at rest (the six-event prefix), and in total issues exactly
`count` `assertTrigger` pulses, all strictly before the single buffered
fetch of `count` samples, which is the final event. -/
theorem c6_trigger_protocol (name : String) (start stop step mtt : ℚ)
    (env : ScanEnv) (ls : LineScan)
    (hinit : LineScan.init name start stop step mtt = .ok ls)
    (hok : (ls.run env).error = none) :
    ls.n_steps = ls.pos_values.length ∧
    (ls.run env).events.take 6 = preTriggerEvents ls ∧
    ∃ evs, (ls.run env).events = evs ++ [Ev.fetchField ls.n_steps] ∧
      evs.countP isAssertEv = ls.n_steps ∧ evs.countP isFetchEv = 0 := by
  obtain ⟨hax, hstart, hstop, hstep, hpos, hn, -⟩ := init_ok hinit
  obtain ⟨h0, h2048, hflyloop⟩ := run_ok_inv hok
  have hlen : ls.pos_values.length ≠ 0 := by rw [← hn]; exact h0
  by_cases hmode : ls.on_the_fly = true
  · have hloop := hflyloop hmode
    have hevs := flyLoop_none_events ls.axis.scale_factor
      (copysignOne (ls.stop - ls.start)) env.encRead (ls.pos_values.drop 1) 0 hloop
    rw [run_fly_ok h0 hmode h2048 hloop]
    refine ⟨hn, ?_, ?_⟩
    · show ((((preTriggerEvents ls ++ flySetupEvents ls env) ++ _) ++ _)).take 6 = _
      rw [List.append_assoc, List.append_assoc]
      exact List.take_left' rfl
    · refine ⟨(preTriggerEvents ls ++ flySetupEvents ls env ++
        (scanOnTheFlyLoop ls.axis.scale_factor (copysignOne (ls.stop - ls.start))
          env.encRead 0 (ls.pos_values.drop 1)).1) ++ [Ev.setSpeed none], ?_, ?_, ?_⟩
      · simp
      · rw [hevs, List.countP_append, List.countP_append, List.countP_append,
          pre_assert_count, setup_assert_count, flyBlock_assert_count]
        show 1 + 0 + (ls.pos_values.drop 1).length + 0 = ls.n_steps
        rw [List.length_drop, hn]
        omega
      · rw [hevs, List.countP_append, List.countP_append, List.countP_append,
          pre_fetch_count, setup_fetch_count, flyBlock_fetch_count]
        rfl
  · have hmode' : ls.on_the_fly = false := by
      revert hmode
      cases ls.on_the_fly <;> simp
    rw [run_pbp_ok h0 hmode' h2048]
    refine ⟨hn, ?_, ?_⟩
    · show (((preTriggerEvents ls ++ pointByPointEvents ls) ++ _)).take 6 = _
      rw [List.append_assoc]
      exact List.take_left' rfl
    · refine ⟨preTriggerEvents ls ++ pointByPointEvents ls, rfl, ?_, ?_⟩
      · rw [List.countP_append, pre_assert_count, pbp_assert_count]
        show 1 + (ls.pos_values.drop 1).length = ls.n_steps
        rw [List.length_drop, hn]
        omega
      · rw [List.countP_append, pre_fetch_count, pbp_fetch_count]

/-- C6 witness: the error-free demo scan `LineScan('z', 0, 1, 0.5)` opens
with exactly the six arm-and-first-trigger events. -/
theorem c6_trigger_witness :
    (lsZdemo.run envDemo).events.take 6 = preTriggerEvents lsZdemo :=
  (c6_trigger_protocol "z" 0 1 (1/2) (1/5) envDemo lsZdemo (init_z 0 1 (1/2) (1/5))
    lsZdemo_run_ok).2.1

/-- C8: a completed line scan returns as many field samples as there are
positions, and the trigger pulses are index-aligned with the positions:
the `i`-th `assertTrigger` of the trace is issued with the axis at
`pos_values[i]` (the first at rest at `start`, each later one on arrival
at its target). -/
theorem c8_positions_samples_aligned (name : String) (start stop step mtt : ℚ)
    (env : ScanEnv) (ls : LineScan)
    (hinit : LineScan.init name start stop step mtt = .ok ls)
    (hok : (ls.run env).error = none) :
    (ls.run env).fieldValues.length = ls.pos_values.length ∧
    sampledTargets ls.axis.scale_factor (ls.run env).events 0 = ls.pos_values := by
  obtain ⟨hax, hstart, hstop, hstep, hpos, hn, -⟩ := init_ok hinit
  obtain ⟨h0, h2048, hflyloop⟩ := run_ok_inv hok
  have hlen : ls.pos_values.length ≠ 0 := by rw [← hn]; exact h0
  have hcons : ls.pos_values = ls.start :: ls.pos_values.drop 1 := by
    rw [hpos, hstart]
    exact arange_cons start stop step (by rw [← hpos]; exact hlen)
  have hscale : ls.axis.scale_factor ≠ 0 := axis_scale_ne_zero hax
  by_cases hmode : ls.on_the_fly = true
  · have hloop := hflyloop hmode
    have hevs := flyLoop_none_events ls.axis.scale_factor
      (copysignOne (ls.stop - ls.start)) env.encRead (ls.pos_values.drop 1) 0 hloop
    rw [run_fly_ok h0 hmode h2048 hloop]
    refine ⟨?_, ?_⟩
    · show (getFieldAll ls.n_steps env.buffer).length = _
      rw [getFieldAll, List.length_map, List.length_range, hn]
    · show sampledTargets _ ((((preTriggerEvents ls ++ flySetupEvents ls env) ++ _) ++ _)) 0 = _
      rw [List.append_assoc, List.append_assoc, sampled_pre, sampled_setup, hevs]
      rw [sampledTargets_fly ls.axis.scale_factor hscale (ls.pos_values.drop 1)
        [Ev.setSpeed none, Ev.fetchField ls.n_steps] _ (fun c => rfl)]
      exact hcons.symm
  · have hmode' : ls.on_the_fly = false := by
      revert hmode
      cases ls.on_the_fly <;> simp
    rw [run_pbp_ok h0 hmode' h2048]
    refine ⟨?_, ?_⟩
    · show (getFieldAll ls.n_steps env.buffer).length = _
      rw [getFieldAll, List.length_map, List.length_range, hn]
    · show sampledTargets _ (((preTriggerEvents ls ++ pointByPointEvents ls) ++ _)) 0 = _
      rw [List.append_assoc, sampled_pre]
      unfold pointByPointEvents
      rw [sampledTargets_pbp ls.axis.scale_factor (ls.pos_values.drop 1)
        [Ev.fetchField ls.n_steps] _ (fun c => rfl)]
      exact hcons.symm

/-- C8 witness: for the completed demo scan, the triggered positions are
exactly `pos_values = [0, 0.5, 1]`. -/
theorem c8_alignment_witness :
    sampledTargets lsZdemo.axis.scale_factor (lsZdemo.run envDemo).events 0 =
      lsZdemo.pos_values :=
  (c8_positions_samples_aligned "z" 0 1 (1/2) (1/5) envDemo lsZdemo
    (init_z 0 1 (1/2) (1/5)) lsZdemo_run_ok).2

/-- C9: a point-by-point scan (`axis_name = 'y'`) issues no encoder
operation at all, while an error-free on-the-fly scan issues the
comparator-and-wait primitive exactly once per position after the first —
the wait targets are precisely the scaled remaining positions, in order. -/
theorem c9_encoder_usage (start stop step mtt : ℚ) (env : ScanEnv) :
    (∀ ls, LineScan.init "y" start stop step mtt = .ok ls →
      (ls.run env).events.countP isEncoderEv = 0) ∧
    (∀ (name : String) (ls : LineScan),
      LineScan.init name start stop step mtt = .ok ls → ls.on_the_fly = true →
      (ls.run env).error = none →
      waitTargets (ls.run env).events =
        (ls.pos_values.drop 1).map (fun pos => pos * ls.axis.scale_factor)) := by
  constructor
  · intro ls h
    rw [init_y] at h
    obtain rfl := ((Except.ok.injEq _ _).mp h).symm
    exact run_no_encoder_pbp rfl
  · intro name ls hinit hfly hok
    obtain ⟨h0, h2048, hflyloop⟩ := run_ok_inv hok
    have hloop := hflyloop hfly
    have hevs := flyLoop_none_events ls.axis.scale_factor
      (copysignOne (ls.stop - ls.start)) env.encRead (ls.pos_values.drop 1) 0 hloop
    rw [run_fly_ok h0 hfly h2048 hloop]
    show waitTargets ((((preTriggerEvents ls ++ flySetupEvents ls env) ++ _) ++ _)) = _
    rw [waitTargets_append, waitTargets_append, waitTargets_append,
      pre_waitTargets, setup_waitTargets, hevs, flyBlock_waitTargets]
    simp [waitTargets]

/-- C9 witness: the `y`-axis demo scan issues zero encoder operations; the
`z`-axis demo scan waits exactly for the scaled targets `[500, 1000]`. -/
theorem c9_encoder_witness :
    (lsYdemo.run envDemo).events.countP isEncoderEv = 0 ∧
    waitTargets (lsZdemo.run envDemo).events =
      (lsZdemo.pos_values.drop 1).map (fun pos => pos * lsZdemo.axis.scale_factor) :=
  ⟨(c9_encoder_usage 0 1 (1/2) (1/5) envDemo).1 lsYdemo (init_y 0 1 (1/2) (1/5)),
   (c9_encoder_usage 0 1 (1/2) (1/5) envDemo).2 "z" lsZdemo (init_z 0 1 (1/2) (1/5))
     rfl lsZdemo_run_ok⟩

/-- C10: whichever motion axis (`x` or `z`) an on-the-fly scan drives, the
encoder axis selected for triggering is the Adlink card's `'z'` axis, and
`y` scans are always point-by-point (no encoder axis at all). -/
theorem c10_encoder_axis_always_z (start stop step mtt : ℚ) :
    (LineScan.init "x" start stop step mtt).map
      (fun ls => (ls.enc_axis, ls.on_the_fly)) = .ok (some "z", true) ∧
    (LineScan.init "z" start stop step mtt).map
      (fun ls => (ls.enc_axis, ls.on_the_fly)) = .ok (some "z", true) ∧
    (LineScan.init "y" start stop step mtt).map
      (fun ls => (ls.enc_axis, ls.on_the_fly)) = .ok (none, false) :=
  ⟨rfl, rfl, rfl⟩

end MagnetLab

namespace MagnetLab

/-! ### The grid sweep retry loop (`map_xy.py` lines 126-137) -/

/-- Observable actions of the per-cell retry loop: a `line_scan.run()`
attempt (numbered from 0), the `mc.axis[axis1].stop()` recovery action,
and an `input('Scan failed after N retries. Try again? [Y/n]')` prompt
shown with the current retry count. -/
inductive SweepEv where
  | attempt (n : ℕ)
  | stopPrimary
  | prompt (retries : ℕ)
deriving DecidableEq

/-- How the retry loop ends: the cell scanned successfully, the loop
re-raised the last scan error, or the unrolling fuel ran out (the Python
loop is unbounded). -/
inductive SweepOutcome where
  | success
  | raised (e : ScanError)
  | fuelOut
deriving DecidableEq

/-- The `while not ok` retry loop of `map_xy.py`: `outcomes n` is the
result of the `n`-th `line_scan.run()` (`none` = success), `answerYes r`
whether the operator's reply to the prompt at retry count `r` is in
`('', 'Y')` after upcasing — i.e. an affirmative "try again". On each
failure the loop stops the primary axis, increments `retries`, and when
`retries % 5 == 0` prompts the operator; `raise` re-raises the last error
when the reply is affirmative, while any other reply falls through to
another automatic retry. -/
def retryLoop (outcomes : ℕ → Option ScanError) (answerYes : ℕ → Bool) :
    ℕ → ℕ → ℕ → List SweepEv × SweepOutcome
  | 0, _, _ => ([], .fuelOut)
  | fuel + 1, n, retries =>
    match outcomes n with
    | none => ([.attempt n], .success)
    | some e =>
      if (retries + 1) % 5 = 0 then
        if answerYes (retries + 1) then
          ([.attempt n, .stopPrimary, .prompt (retries + 1)], .raised e)
        else
          let r := retryLoop outcomes answerYes fuel (n + 1) (retries + 1)
          (.attempt n :: .stopPrimary :: .prompt (retries + 1) :: r.1, r.2)
      else
        let r := retryLoop outcomes answerYes fuel (n + 1) (retries + 1)
        (.attempt n :: .stopPrimary :: r.1, r.2)

/-- Six consecutive `MissedTrigger` failures, then success. -/
def sixFailures : ℕ → Option ScanError :=
  fun n => if n < 6 then some (.missedTrigger 0 0) else none

/-- C1: evaluating the retry loop on six consecutive `MissedTrigger`
failures. The confirmation prompt is indeed invoked exactly once, after
the 5th failure and before any 6th attempt — but the continue/abort
semantics is inverted relative to the claim and to the prompt's own text
`Try again? [Y/n]`: an affirmative "try again" answer re-raises the last
error and kills the sweep (first conjunct), while a negative answer
resumes automatic retrying to eventual success (second conjunct). -/
theorem c1_retry_semantics_inverted :
    retryLoop sixFailures (fun _ => true) 10 0 0 =
      ([.attempt 0, .stopPrimary, .attempt 1, .stopPrimary, .attempt 2, .stopPrimary,
        .attempt 3, .stopPrimary, .attempt 4, .stopPrimary, .prompt 5],
       .raised (.missedTrigger 0 0)) ∧
    retryLoop sixFailures (fun _ => false) 10 0 0 =
      ([.attempt 0, .stopPrimary, .attempt 1, .stopPrimary, .attempt 2, .stopPrimary,
        .attempt 3, .stopPrimary, .attempt 4, .stopPrimary, .prompt 5,
        .attempt 5, .stopPrimary, .attempt 6],
       .success) := by
  constructor <;> rfl

end MagnetLab
